import Mathlib

/-!
Verification development for the NebulOuS optimiser-solver core.

Shallow embedding of the message handlers of the three central actors:

* `MetricUpdater` (src/MetricUpdater.cpp) — the metric state keeper that
  folds metric-value predictions into a registry and turns SLO-violation
  events into application-execution-context requests;
* `AMPLSolver` (src/AMPLSolver.cpp) — the solver worker owning one AMPL
  model, handling Define-Problem, Data-File-Update and Solve-Problem;
* `SolverManager` (src/SolverManager.hpp) — the dispatcher owning the pool
  of solver workers, the pending-request queue sorted by timestamp, and the
  passive/active (idle/busy) address sets.

JSON values are modelled by the inductive `JValue` mirroring the kinds of
nlohmann::json that the handlers dispatch on; the AMPL engine is modelled
as an explicit record of the operations the code performs against it
(parameters set, objectives restored/dropped, files read, solve calls),
with the numeric outcome of a solve supplied by an explicit function
argument standing for the opaque engine.  C++ exceptions are modelled by
returning the state reached at the throw point together with an error
value, because a C++ throw does not undo mutations already performed.
-/

namespace NebulOuS

/-- JSON values as dispatched upon by the handlers (the kinds of
nlohmann::json used by the repository: null, signed integer, unsigned
integer, boolean, floating point, string, array, object).  The payload of
a floating-point value is represented by a rational number; no arithmetic
is ever performed on it by the embedded code. -/
inductive JValue where
  | null
  | intVal (i : Int)
  | uintVal (n : Nat)
  | boolVal (b : Bool)
  | floatVal (q : Rat)
  | strVal (s : String)
  | arrVal (elems : List JValue)
  | objVal (fields : List (String × JValue))

/-- Test for the JSON null value, as `is_null` in nlohmann::json. -/
def JValue.isNull : JValue → Bool
  | .null => true
  | _ => false

/-- Replace the value stored under key `k` of an association list, leaving
the list unchanged when `k` is absent.  This models in-place assignment
`map.at(k) = v` on a C++ map. -/
def updateAssoc {β : Type} (l : List (String × β)) (k : String) (v : β) :
    List (String × β) :=
  l.map (fun p => if p.1 = k then (p.1, v) else p)

/-- Insert `(k, v)` only when the key `k` is absent, as `std::map::emplace`
does. -/
def insertIfAbsentAssoc {β : Type} (l : List (String × β)) (k : String)
    (v : β) : List (String × β) :=
  if (l.lookup k).isSome then l else l ++ [(k, v)]

/-- Application lifecycle states of `MetricUpdater::ApplicationLifecycle::State`
(src/MetricUpdater.hpp lines 252-259). -/
inductive AppState where
  | new
  | ready
  | deploying
  | running
  | failed
deriving DecidableEq, Repr

/-- The static map from the textual state representation to the lifecycle
enumeration (src/MetricUpdater.cpp lines 180-186). -/
def lifecycleStates : List (String × AppState) :=
  [("NEW", .new), ("READY", .ready), ("DEPLOYING", .deploying),
   ("RUNNING", .running), ("FAILED", .failed)]

/-- State owned by the Metric Updater actor: the metric value registry
(`MetricValues`, an insertion-ordered view of the `unordered_map` with
duplicate-free keys), the largest prediction time observed
(`ValidityTime`), the latched all-values-set flag, and the stored
application lifecycle state (src/MetricUpdater.hpp lines 100-288). -/
structure UpdaterState where
  metricValues : List (String × JValue)
  validityTime : Nat
  allMetricValuesSet : Bool
  appState : AppState

/-- The initial Metric Updater state established by the constructor
(src/MetricUpdater.cpp lines 277-284): empty registry, validity time zero,
flag false, lifecycle state `New`. -/
def initUpdater : UpdaterState :=
  { metricValues := [], validityTime := 0, allMetricValuesSet := false,
    appState := .new }

/-- Errors surfaced by the Metric Updater handlers. -/
inductive UpdaterError where
  | malformedMetricList
  | unknownLifecycleState
deriving DecidableEq, Repr

/-- One application-execution-context request as built by
`Solver::ApplicationExecutionContext` (src/Solver.hpp lines 153-207): the
timestamp, the optional objective-function name (absent when the
constructor without an objective argument is used), the metric snapshot,
and the deployment flag. -/
structure ExecContext where
  timestamp : Nat
  objectiveFunction : Option String
  executionContext : List (String × JValue)
  deploySolution : Bool

/-- `MetricUpdater::UpdateMetricValue` (src/MetricUpdater.cpp lines
137-153): `name` is the topic with the metric-value root string already
stripped; if the name is in the registry the stored value is replaced by
the message's `metricValue` field and the validity time advances to the
maximum of its current value and the message's `predictionTime`; otherwise
the message is dropped silently. -/
def updateMetricValue (s : UpdaterState) (name : String) (v : JValue)
    (t : Nat) : UpdaterState :=
  if (s.metricValues.lookup name).isSome then
    { s with metricValues := updateAssoc s.metricValues name v,
             validityTime := max s.validityTime t }
  else s

/-- The guard of `MetricUpdater::SLOViolationHandler` (src/MetricUpdater.cpp
lines 218-222): the stored state is Running, and either the all-values-set
flag holds or the registry is non-empty and a scan finds no null record. -/
def sloCondition (s : UpdaterState) : Bool :=
  (s.appState == .running) &&
  (s.allMetricValuesSet ||
    (!s.metricValues.isEmpty &&
      s.metricValues.all (fun p => !p.2.isNull)))

/-- `MetricUpdater::SLOViolationHandler` (src/MetricUpdater.cpp lines
211-236): when the guard holds, an application execution context carrying
the message's `predictionTime`, a copy of the whole registry, and
deployment flag true is sent to the solver manager, the all-values-set
flag is latched true and the lifecycle state moves to Deploying; otherwise
nothing is sent and the state is unchanged. -/
def sloViolationHandler (s : UpdaterState) (t2 : Nat) :
    UpdaterState × Option ExecContext :=
  if sloCondition s then
    ({ s with allMetricValuesSet := true, appState := .deploying },
     some { timestamp := t2, objectiveFunction := none,
            executionContext := s.metricValues, deploySolution := true })
  else (s, none)

/-- `MetricUpdater::LifecycleHandler` together with the conversion operator
`ApplicationLifecycle::operator State` (src/MetricUpdater.cpp lines
162-189): the state string carried by the message is looked up in the
static map; an unknown string makes the lookup throw `std::out_of_range`
before the assignment to `ApplicationState`, so the stored state is
unchanged; a known string is stored. -/
def lifecycleHandler (s : UpdaterState) (stateField : String) :
    UpdaterState × Option UpdaterError :=
  match lifecycleStates.lookup stateField with
  | some st => ({ s with appState := st }, none)
  | none => (s, some .unknownLifecycleState)

/-- The insertion loop of `MetricUpdater::AddMetricSubscription`
(src/MetricUpdater.cpp lines 55-77): each name of the metric list is
inserted with a null record if not yet present (`try_emplace`), and the
all-values-set flag is reset whenever a record is actually added. -/
def insertMetrics (s : UpdaterState) : List String → UpdaterState
  | [] => s
  | n :: rest =>
      if (s.metricValues.lookup n).isSome then insertMetrics s rest
      else insertMetrics
        { s with metricValues := s.metricValues ++ [(n, .null)],
                 allMetricValuesSet := false } rest

/-- `MetricUpdater::AddMetricSubscription` (src/MetricUpdater.cpp lines
40-109): insert null records for new names of the list, then remove the
records whose names are missing from the list. -/
def addMetricSubscription (s : UpdaterState) (names : List String) :
    UpdaterState :=
  let s1 := insertMetrics s names
  { s1 with metricValues := s1.metricValues.filter (fun p => p.1 ∈ names) }

/-! ## Solver worker: AMPLSolver (src/AMPLSolver.cpp) -/

/-- Values accepted by the AMPL engine for a parameter: the three overloads
of `ampl::Parameter::set` used by `AMPLSolver::SetAMPLParameter` (signed
long, double, string). -/
inductive AMPLValue where
  | long (i : Int)
  | double (q : Rat)
  | str (s : String)
deriving DecidableEq, Repr

/-- The state of the AMPL engine object `ProblemDefinition` as far as the
repository's code drives it: the declared parameters with their current
values, the declared objectives with their restored/dropped status (true
means restored, i.e. active), the per-objective and per-variable values
read back after a solve, the model and data files read, and the number of
solve invocations.  The numeric effect of a solve is opaque to the code
and is supplied as an explicit function where needed. -/
structure AMPLModel where
  params : List (String × AMPLValue)
  objectives : List (String × Bool)
  objectiveValue : List (String × Rat)
  variableValue : List (String × Rat)
  filesRead : List (String × String)
  dataRead : List (String × String)
  solveCount : Nat
deriving DecidableEq, Repr

/-- Errors raised by the AMPLSolver handlers. `missingField` stands for the
`nlohmann::json::at` out-of-range throw on an absent key;
`malformedProblem` for the invalid-argument throw on a missing default
objective function; `unknownParameter` for the AMPL engine rejecting
`getParameter` on an undeclared name. -/
inductive SolverError where
  | missingField
  | malformedProblem
  | unsupportedValueKind
  | unknownParameter (name : String)
  | noObjectiveSelected
  | unknownObjective
deriving DecidableEq, Repr

/-- The type-directed coercion switch of `AMPLSolver::SetAMPLParameter`
(src/AMPLSolver.cpp lines 78-108): integer, unsigned and boolean JSON
values are read as signed long (nlohmann converts a boolean to 0 or 1),
floating point as double, string as string; every other kind falls to the
default branch and is rejected. -/
def coerceParam : JValue → Option AMPLValue
  | .intVal i => some (.long i)
  | .uintVal n => some (.long n)
  | .boolVal b => some (.long (if b then 1 else 0))
  | .floatVal q => some (.double q)
  | .strVal s => some (.str s)
  | _ => none

/-- `AMPLSolver::SetAMPLParameter` (src/AMPLSolver.cpp lines 72-109): look
the parameter up in the model (the engine rejects an undeclared name
before any value is examined), then set it according to the coercion
switch, raising an invalid-argument error on an unsupported value kind.
No mutation happens on either error. -/
def setAMPLParameter (m : AMPLModel) (name : String) (v : JValue) :
    Except SolverError AMPLModel :=
  if (m.params.lookup name).isSome then
    match coerceParam v with
    | some av => .ok { m with params := updateAssoc m.params name av }
    | none => .error .unsupportedValueKind
  else .error (.unknownParameter name)

/-- The parameter-assignment loop of `AMPLSolver::SolveProblem`
(src/AMPLSolver.cpp lines 265-268) and of the constants loop: assign the
pairs in order; a throw aborts the loop, keeping the mutations already
performed. -/
def setParams (m : AMPLModel) :
    List (String × JValue) → AMPLModel × Option SolverError
  | [] => (m, none)
  | (n, v) :: rest =>
    match setAMPLParameter m n v with
    | .ok m1 => setParams m1 rest
    | .error e => (m, some e)

/-- State owned by one AMPLSolver worker (src/AMPLSolver.hpp lines
99-171 and src/AMPLSolver.cpp lines 389-400): the engine object, the
`ProblemUndefined` flag (initially true), the stored default objective
name (initially empty), and the variable-to-constant map. -/
structure SolverState where
  model : AMPLModel
  problemUndefined : Bool
  defaultObjectiveFunction : String
  variablesToConstants : List (String × String)
deriving DecidableEq, Repr

/-- The Define-Problem payload (src/AMPLSolver.cpp lines 139-219 and
spec §6): problem file name and DSL body, mandatory default objective
name, optional data file, optional constants map
{constant name ↦ (variable name, initial value)}.  `Option` models the
presence of the corresponding JSON key. -/
structure ProblemMessage where
  problemFile : Option String
  problemDescription : Option String
  defaultObjectiveFunction : Option String
  dataFile : Option String
  newData : Option String
  constants : List (String × String × JValue)

/-- `AMPLSolver::DataFileUpdate` (src/AMPLSolver.cpp lines 230-236): save
the data file and read it into the engine.  The engine's parsing of the
data is opaque; the embedding records the read. -/
def dataFileUpdate (s : SolverState) (fileName content : String) :
    SolverState :=
  { s with model :=
      { s.model with dataRead := s.model.dataRead ++ [(fileName, content)] } }

/-- The constants loop of `AMPLSolver::DefineProblem` (src/AMPLSolver.cpp
lines 202-213): record the variable-to-constant mapping (`std::map::emplace`,
so only when the variable name is new) and set the constant parameter to
its initial value.  A throw from `SetAMPLParameter` aborts the loop with
the mutations made so far. -/
def processConstants (s : SolverState) :
    List (String × String × JValue) → SolverState × Option SolverError
  | [] => (s, none)
  | (cname, vname, initVal) :: rest =>
    let s1 := { s with variablesToConstants :=
                  insertIfAbsentAssoc s.variablesToConstants vname cname }
    match setAMPLParameter s1.model cname initVal with
    | .ok m1 => processConstants { s1 with model := m1 } rest
    | .error e => (s1, some e)

/-- `AMPLSolver::DefineProblem` (src/AMPLSolver.cpp lines 139-219), in the
source's order: read the problem file into the engine (after the two
mandatory keys are extracted; the save and the engine parse are modelled
as succeeding), then require the default objective name — its absence
raises the invalid-argument error, after the engine has already read the
new model — then optionally ingest the initial data through the data-file
path, then process the constants, and only at the very end clear the
`ProblemUndefined` flag. -/
def defineProblem (s : SolverState) (msg : ProblemMessage) :
    SolverState × Option SolverError :=
  match msg.problemFile, msg.problemDescription with
  | some file, some desc =>
    let s1 := { s with model :=
        { s.model with filesRead := s.model.filesRead ++ [(file, desc)] } }
    match msg.defaultObjectiveFunction with
    | some obj =>
      let s2 := { s1 with defaultObjectiveFunction := obj }
      let s3 :=
        match msg.dataFile, msg.newData with
        | some df, some nd => if nd ≠ "" then dataFileUpdate s2 df nd else s2
        | _, _ => s2
      match processConstants s3 msg.constants with
      | (s4, none) => ({ s4 with problemUndefined := false }, none)
      | (s4, some e) => (s4, some e)
    | none => (s1, some .malformedProblem)
  | _, _ => (s, some .missingField)

/-- The objective resolution of `AMPLSolver::SolveProblem`
(src/AMPLSolver.cpp lines 274-297): the request's objective name if
present, else the stored default when non-empty, else the
no-objective-selected error. -/
def resolveGoal (s : SolverState) (ctx : ExecContext) :
    Except SolverError String :=
  match ctx.objectiveFunction with
  | some g => .ok g
  | none =>
    if s.defaultObjectiveFunction = "" then .error .noObjectiveSelected
    else .ok s.defaultObjectiveFunction

/-- Objective value read back from the solved model; `value()` on an AMPL
objective always yields a double, modelled with default 0 for a name the
opaque engine did not value. -/
def lookupRat (l : List (String × Rat)) (n : String) : Rat :=
  (l.lookup n).getD 0

/-- The variable-collection loop of `AMPLSolver::SolveProblem`
(src/AMPLSolver.cpp lines 350-361): record each variable's value; when
the deployment flag is set and the variable is in the
variable-to-constant map, assign the value to the constant parameter.
A throw aborts the loop, keeping the engine mutations made so far, and
no solution is emitted. -/
def collectVariables (deploy : Bool) (v2c : List (String × String))
    (m : AMPLModel) :
    List (String × Rat) → AMPLModel × List (String × Rat) × Option SolverError
  | [] => (m, [], none)
  | (n, val) :: rest =>
    match (if deploy then v2c.lookup n else none) with
    | some cname =>
      match setAMPLParameter m cname (.floatVal val) with
      | .ok m1 =>
        let r := collectVariables deploy v2c m1 rest
        (r.1, (n, val) :: r.2.1, r.2.2)
      | .error e => (m, [(n, val)], some e)
    | none =>
      let r := collectVariables deploy v2c m rest
      (r.1, (n, val) :: r.2.1, r.2.2)

/-- The Solution message built at src/AMPLSolver.cpp lines 365-370 from
`Solver::Solution` (src/Solver.hpp lines 239-272). -/
structure SolutionMsg where
  timestamp : Nat
  objectiveFunction : String
  objectiveValues : List (String × Rat)
  variableValues : List (String × Rat)
  deploySolution : Bool
deriving DecidableEq, Repr

/-- `AMPLSolver::SolveProblem` (src/AMPLSolver.cpp lines 248-373),
parameterised by `solveFun`, the opaque engine effect of
`ProblemDefinition.solve()`.  Returns the state at exit (also at a throw
point), the error if one was raised, and the emitted Solution if any.
In the source's order: return silently when `ProblemUndefined`; assign
all snapshot parameters; resolve the objective name; restore the matching
objective and drop every other one; raise unknown-objective if none
matched; solve; collect objective values; collect variable values,
feeding deployed values back to constants; emit the Solution to the
requester. -/
def solveProblem (solveFun : AMPLModel → AMPLModel) (s : SolverState)
    (ctx : ExecContext) :
    SolverState × Option SolverError × Option SolutionMsg :=
  if s.problemUndefined then (s, none, none)
  else
    match setParams s.model ctx.executionContext with
    | (m1, some e) => ({ s with model := m1 }, some e, none)
    | (m1, none) =>
      match resolveGoal s ctx with
      | .error e => ({ s with model := m1 }, some e, none)
      | .ok goal =>
        let m2 := { m1 with objectives :=
            m1.objectives.map (fun p => (p.1, p.1 == goal)) }
        if m1.objectives.any (fun p => p.1 == goal) then
          let m3 := solveFun { m2 with solveCount := m2.solveCount + 1 }
          let objVals := m3.objectives.map
            (fun p => (p.1, lookupRat m3.objectiveValue p.1))
          match collectVariables ctx.deploySolution s.variablesToConstants
              m3 m3.variableValue with
          | (m4, varVals, none) =>
            ({ s with model := m4 }, none,
             some { timestamp := ctx.timestamp, objectiveFunction := goal,
                    objectiveValues := objVals, variableValues := varVals,
                    deploySolution := ctx.deploySolution })
          | (m4, _, some e) => ({ s with model := m4 }, some e, none)
        else ({ s with model := m2 }, some .unknownObjective, none)

/-! ## Solver manager / dispatcher (src/SolverManager.hpp) -/

/-- One pending application-execution-context request as keyed by the
solver manager: its unique context identifier and its timestamp
(src/SolverManager.hpp lines 129-133). -/
structure Request where
  id : String
  timestamp : Nat
deriving DecidableEq, Repr

/-- State owned by the solver manager (src/SolverManager.hpp lines
114-133): the passive (idle) and active (busy) solver address sets — the
`unordered_set`s are modelled as duplicate-free lists in iteration
order — the identifier-keyed context store `Contexts`, and the
time-sorted dispatch queue `ContextExecutionQueue` (a multimap: ascending
timestamps, ties in arrival order). -/
structure ManagerState where
  passiveSolvers : List String
  activeSolvers : List String
  contexts : List (String × Request)
  queue : List (Nat × String)
deriving DecidableEq, Repr

/-- The manager state right after construction with the given worker pool
(src/SolverManager.hpp lines 275-294): every solver address is passive,
no context is stored. -/
def initManager (pool : List String) : ManagerState :=
  { passiveSolvers := pool, activeSolvers := [], contexts := [], queue := [] }

/-- One dispatch performed by `DispatchToSolvers`: the worker address the
request was sent to, the timestamp key and identifier of the dispatched
queue entry, and the payload `Contexts.at(id)` that was sent.  The
`getD` default stands for the `at` throw on a missing identifier; the
coherence lemma below shows the default is never taken from a reachable
state. -/
structure Dispatch where
  solver : String
  reqTime : Nat
  reqId : String
  payload : Request
deriving DecidableEq, Repr

/-- Set insertion into the active-solver `unordered_set` as performed by
`std::inserter`: no effect when the address is already present. -/
def insertAddress (l : List String) (a : String) : List String :=
  if a ∈ l then l else l ++ [a]

/-- `SolverManager::DispatchToSolvers` (src/SolverManager.hpp lines
144-172), translated statement by statement.  When both the passive set
and the queue are non-empty: send `Contexts.at(id)` to one passive solver
per queued entry, pairing them with `views::zip`; then copy the first
`min` passive addresses into the active set (the source's
`std::ranges::move` out of a `const`-element `unordered_set` degrades to
a copy and removes nothing from `PassiveSolvers`); then erase the
dispatched entries from the queue. -/
def dispatchToSolvers (s : ManagerState) : ManagerState × List Dispatch :=
  if !s.passiveSolvers.isEmpty && !s.queue.isEmpty then
    ({ s with
        activeSolvers :=
          (s.passiveSolvers.take
              (min s.passiveSolvers.length s.queue.length)).foldl
            insertAddress s.activeSolvers,
        queue := s.queue.drop (min s.passiveSolvers.length s.queue.length) },
     (s.passiveSolvers.zip s.queue).map
       (fun p => { solver := p.1, reqTime := p.2.1, reqId := p.2.2,
                   payload := (s.contexts.lookup p.2.2).getD
                                { id := p.2.2, timestamp := p.2.1 } }))
  else (s, [])

/-- Ordered insertion into the `ContextExecutionQueue` multimap: an entry
with an equal timestamp is placed after the existing ones (multimap
emplace inserts at the upper bound), so ties keep arrival order. -/
def insertTimed : List (Nat × String) → Nat → String → List (Nat × String)
  | [], t, id => [(t, id)]
  | (t1, id1) :: rest, t, id =>
    if t < t1 then (t, id) :: (t1, id1) :: rest
    else (t1, id1) :: insertTimed rest t id

/-- `SolverManager::HandleApplicationExecutionContext`
(src/SolverManager.hpp lines 181-211): `try_emplace` the context under
its identifier; on success record its timestamp in the queue and run the
dispatcher; a duplicate identifier raises the invalid-argument error with
no mutation and no dispatch (the throw aborts only this message). -/
def handleContext (s : ManagerState) (req : Request) :
    ManagerState × List Dispatch :=
  if (s.contexts.lookup req.id).isNone then
    dispatchToSolvers
      { s with contexts := s.contexts ++ [(req.id, req)],
               queue := insertTimed s.queue req.timestamp req.id }
  else (s, [])

/-- `SolverManager::PublishSolution` (src/SolverManager.hpp lines
223-229): publish the solution, move the solver's address node from the
active set back to the passive set (`insert(extract(...))`; an extract of
an absent address yields an empty node and the insert of an
already-present address is a no-op), then run the dispatcher. -/
def publishSolution (s : ManagerState) (solver : String) :
    ManagerState × List Dispatch :=
  if solver ∈ s.activeSolvers then
    dispatchToSolvers
      { s with activeSolvers := s.activeSolvers.erase solver,
               passiveSolvers := insertAddress s.passiveSolvers solver }
  else dispatchToSolvers s

/-- The two kinds of messages driving the solver manager. -/
inductive MEvent where
  | context (req : Request)
  | solution (solver : String)
deriving DecidableEq, Repr

/-- One handled message of the solver manager. -/
def mstep (s : ManagerState) : MEvent → ManagerState × List Dispatch
  | .context req => handleContext s req
  | .solution solver => publishSolution s solver

/-- A whole execution of the solver manager: handle the messages in
order, accumulating the dispatch log. -/
def runManager (s : ManagerState) :
    List MEvent → ManagerState × List Dispatch
  | [] => (s, [])
  | e :: rest =>
    let r1 := mstep s e
    let r2 := runManager r1.1 rest
    (r2.1, r1.2 ++ r2.2)

/-! ## Invariants of the solver manager -/

/-- The pending queue is sorted by timestamp (ties are adjacent; arrival
order within a tie is the list order, maintained by `insertTimed`). -/
def QueueSorted (s : ManagerState) : Prop :=
  List.Pairwise (fun a b => a.1 ≤ b.1) s.queue

/-- Every queue entry's identifier resolves in the context store to the
request with that identifier and timestamp, so `Contexts.at` never
throws during a dispatch and the payload sent carries the queue key as
its timestamp. -/
def QueueCtx (s : ManagerState) : Prop :=
  ∀ t id, (t, id) ∈ s.queue → s.contexts.lookup id = some ⟨id, t⟩

/-! ## Concrete sample states used by counterexamples and witnesses -/

/-- A small engine state: one parameter `load`, one objective `cost`
(restored), one variable `x`, one model file already read. -/
def sampleModel : AMPLModel :=
  { params := [("load", .double 0)], objectives := [("cost", true)],
    objectiveValue := [("cost", 7)], variableValue := [("x", 3)],
    filesRead := [("old.mod", "old body")], dataRead := [], solveCount := 0 }

/-- A worker that has successfully defined a problem. -/
def sampleSolver : SolverState :=
  { model := sampleModel, problemUndefined := false,
    defaultObjectiveFunction := "cost", variablesToConstants := [] }

/-- A worker whose problem-defined flag is false. -/
def sampleSolverUndefined : SolverState :=
  { sampleSolver with problemUndefined := true }

/-- A well-formed solve request matching `sampleSolver`. -/
def sampleCtx : ExecContext :=
  { timestamp := 2000, objectiveFunction := none,
    executionContext := [("load", .floatVal 4)], deploySolution := true }

/-- A solve request naming an objective the model does not declare. -/
def sampleBadCtx : ExecContext :=
  { timestamp := 2000, objectiveFunction := some "latency",
    executionContext := [], deploySolution := true }

/-- A Define-Problem payload with problem file and body but no default
objective function. -/
def sampleMsgNoObjective : ProblemMessage :=
  { problemFile := some "new.mod",
    problemDescription := some "maximize cost: x;",
    defaultObjectiveFunction := none, dataFile := none, newData := none,
    constants := [] }

/-- A metric updater holding one valid metric value while Running. -/
def sampleUpdater : UpdaterState :=
  { metricValues := [("load", .floatVal 3)], validityTime := 1000,
    allMetricValuesSet := false, appState := .running }

/-! ## Claim C6 — silent drop while the problem is undefined -/

/-- Claim C6: every solve request received while the worker's
problem-defined flag is false is silently dropped: Solve-Problem returns
without an error, without invoking the engine, without emitting a
Solution, and without mutating any worker state, for every engine
behaviour `f`. -/
theorem solveProblem_dropped_when_undefined (f : AMPLModel → AMPLModel)
    (s : SolverState) (ctx : ExecContext) (h : s.problemUndefined = true) :
    solveProblem f s ctx = (s, none, none) := by
  simp [solveProblem, h]

/-- Witness for C6 at a concrete undefined worker and request. -/
theorem solveProblem_dropped_when_undefined_witness :
    sampleSolverUndefined.problemUndefined = true ∧
    solveProblem id sampleSolverUndefined sampleCtx =
      (sampleSolverUndefined, none, none) :=
  ⟨rfl, solveProblem_dropped_when_undefined id sampleSolverUndefined
    sampleCtx rfl⟩

/-! ## Claim C8 — type-directed parameter assignment -/

/-- Claim C8: for a declared model parameter, assignment from a JSON value
is type-directed: integers, unsigned integers and booleans are set as
signed long; floating-point numbers as double; strings as string; and a
value of any other kind (null, array, object) raises the
unsupported-value-kind invalid-argument error instead of setting the
parameter. -/
theorem setAMPLParameter_type_directed (m : AMPLModel) (name : String)
    (h : (m.params.lookup name).isSome = true) :
    (∀ i, setAMPLParameter m name (.intVal i) =
      .ok { m with params := updateAssoc m.params name (.long i) }) ∧
    (∀ n, setAMPLParameter m name (.uintVal n) =
      .ok { m with params := updateAssoc m.params name (.long n) }) ∧
    (∀ b, setAMPLParameter m name (.boolVal b) =
      .ok { m with params :=
              updateAssoc m.params name (.long (if b then 1 else 0)) }) ∧
    (∀ q, setAMPLParameter m name (.floatVal q) =
      .ok { m with params := updateAssoc m.params name (.double q) }) ∧
    (∀ str, setAMPLParameter m name (.strVal str) =
      .ok { m with params := updateAssoc m.params name (.str str) }) ∧
    setAMPLParameter m name .null = .error .unsupportedValueKind ∧
    (∀ xs, setAMPLParameter m name (.arrVal xs) =
      .error .unsupportedValueKind) ∧
    (∀ fs, setAMPLParameter m name (.objVal fs) =
      .error .unsupportedValueKind) := by
  refine ⟨fun i => ?_, fun n => ?_, fun b => ?_, fun q => ?_, fun str => ?_,
    ?_, fun xs => ?_, fun fs => ?_⟩ <;>
    simp [setAMPLParameter, coerceParam, h]

/-- Witness for C8 at the declared parameter `load` of the sample model:
a null JSON value is rejected with the unsupported-value-kind error. -/
theorem setAMPLParameter_type_directed_witness :
    (sampleModel.params.lookup "load").isSome = true ∧
    setAMPLParameter sampleModel "load" .null =
      .error .unsupportedValueKind :=
  ⟨rfl, (setAMPLParameter_type_directed sampleModel "load" rfl).2.2.2.2.2.1⟩

/-! ## Claim C10 — unknown lifecycle state strings are rejected -/

/-- Claim C10: a lifecycle message whose state field is not one of NEW,
READY, DEPLOYING, RUNNING, FAILED makes the handler throw (out-of-range
map lookup) with the stored application state unchanged; a message with a
known string stores the corresponding state. -/
theorem lifecycleHandler_unknown_rejected (s : UpdaterState) (str : String) :
    (str ∉ ["NEW", "READY", "DEPLOYING", "RUNNING", "FAILED"] →
      lifecycleHandler s str = (s, some .unknownLifecycleState)) ∧
    (∀ st, lifecycleStates.lookup str = some st →
      lifecycleHandler s str = ({ s with appState := st }, none)) := by
  constructor
  · intro h
    simp only [List.mem_cons, List.not_mem_nil, or_false, not_or] at h
    obtain ⟨h1, h2, h3, h4, h5⟩ := h
    have e1 : (str == "NEW") = false := beq_eq_false_iff_ne.mpr h1
    have e2 : (str == "READY") = false := beq_eq_false_iff_ne.mpr h2
    have e3 : (str == "DEPLOYING") = false := beq_eq_false_iff_ne.mpr h3
    have e4 : (str == "RUNNING") = false := beq_eq_false_iff_ne.mpr h4
    have e5 : (str == "FAILED") = false := beq_eq_false_iff_ne.mpr h5
    simp [lifecycleHandler, lifecycleStates, List.lookup, e1, e2, e3, e4, e5]
  · intro st h
    simp [lifecycleHandler, h]

/-- Witness for C10: the string STOPPED is not a known lifecycle state, so
the handler reports the error and leaves the sample updater unchanged. -/
theorem lifecycleHandler_unknown_rejected_witness :
    "STOPPED" ∉ ["NEW", "READY", "DEPLOYING", "RUNNING", "FAILED"] ∧
    lifecycleHandler sampleUpdater "STOPPED" =
      (sampleUpdater, some .unknownLifecycleState) :=
  ⟨by decide,
   (lifecycleHandler_unknown_rejected sampleUpdater "STOPPED").1 (by decide)⟩

/-! ## Claim C3 — the SLO-violation guard versus an empty registry -/

/-- Claim C3 (code bug): the claim requires a non-empty registry for an
execution-context request to be sent, and the handler's own comment says
an SLO violation is ignored when there are no metric values defined; but
the code tests `AllMetricValuesSet || (!empty && no-null-scan)`, so a
latched flag short-circuits the emptiness check.  The trace below drives
the embedded handlers into exactly that state — metric `a` defined, its
value received, a first SLO violation honoured (latching the flag), the
lifecycle set back to Running, the metric list emptied — and then a
second SLO violation is honoured with an empty registry, emitting a
request whose snapshot is empty. -/
theorem sloViolationHandler_sends_on_empty_registry :
    (addMetricSubscription ((lifecycleHandler (sloViolationHandler
        (updateMetricValue ((lifecycleHandler (addMetricSubscription
          initUpdater ["a"]) "RUNNING").1) "a" (.floatVal 4) 1000)
        2000).1 "RUNNING").1) []).metricValues = [] ∧
    (addMetricSubscription ((lifecycleHandler (sloViolationHandler
        (updateMetricValue ((lifecycleHandler (addMetricSubscription
          initUpdater ["a"]) "RUNNING").1) "a" (.floatVal 4) 1000)
        2000).1 "RUNNING").1) []).allMetricValuesSet = true ∧
    (addMetricSubscription ((lifecycleHandler (sloViolationHandler
        (updateMetricValue ((lifecycleHandler (addMetricSubscription
          initUpdater ["a"]) "RUNNING").1) "a" (.floatVal 4) 1000)
        2000).1 "RUNNING").1) []).appState = .running ∧
    (sloViolationHandler (addMetricSubscription ((lifecycleHandler
        (sloViolationHandler (updateMetricValue ((lifecycleHandler
          (addMetricSubscription initUpdater ["a"]) "RUNNING").1) "a"
          (.floatVal 4) 1000) 2000).1 "RUNNING").1) []) 3000).2 =
      some { timestamp := 3000, objectiveFunction := none,
             executionContext := [], deploySolution := true } :=
  ⟨rfl, rfl, rfl, rfl⟩

/-! ## Claim C4 — missing default objective in Define-Problem -/

/-- Claim C4 as stated is false: the worker does reject a Define-Problem
payload without a default objective name with the invalid-argument
(MalformedProblem) error, and the stored objective name, constants map
and problem-defined flag are unchanged, but the engine has already saved
and read the new problem file before the check, so the previously held
model is not unchanged. -/
theorem defineProblem_missing_objective_counterexample :
    (defineProblem sampleSolver sampleMsgNoObjective).2 =
      some .malformedProblem ∧
    (defineProblem sampleSolver sampleMsgNoObjective).1.model ≠
      sampleSolver.model :=
  ⟨rfl, by decide⟩

/-- Claim C4 amended: a Define-Problem payload carrying a problem file and
body but no default objective name is rejected with the MalformedProblem
(invalid-argument) error; the stored default objective name, the
variable-to-constant map and the problem-defined flag are unchanged by
the failed operation, but the new problem file has already been read into
the engine when the error is raised, replacing the previously held
model. -/
theorem defineProblem_missing_objective_amended (s : SolverState)
    (msg : ProblemMessage) (file desc : String)
    (hf : msg.problemFile = some file)
    (hd : msg.problemDescription = some desc)
    (ho : msg.defaultObjectiveFunction = none) :
    defineProblem s msg =
      ({ s with model := { s.model with
           filesRead := s.model.filesRead ++ [(file, desc)] } },
       some .malformedProblem) ∧
    (defineProblem s msg).1.defaultObjectiveFunction =
      s.defaultObjectiveFunction ∧
    (defineProblem s msg).1.variablesToConstants = s.variablesToConstants ∧
    (defineProblem s msg).1.problemUndefined = s.problemUndefined ∧
    (defineProblem s msg).1.model.filesRead =
      s.model.filesRead ++ [(file, desc)] := by
  refine ⟨?_, ?_, ?_, ?_, ?_⟩ <;> simp [defineProblem, hf, hd, ho]

/-- Witness for the amended C4 at the sample worker and payload. -/
theorem defineProblem_missing_objective_amended_witness :
    sampleMsgNoObjective.problemFile = some "new.mod" ∧
    sampleMsgNoObjective.problemDescription = some "maximize cost: x;" ∧
    sampleMsgNoObjective.defaultObjectiveFunction = none ∧
    defineProblem sampleSolver sampleMsgNoObjective =
      ({ sampleSolver with model := { sampleSolver.model with
           filesRead := sampleSolver.model.filesRead ++
             [("new.mod", "maximize cost: x;")] } },
       some .malformedProblem) :=
  ⟨rfl, rfl, rfl,
   (defineProblem_missing_objective_amended sampleSolver sampleMsgNoObjective
     "new.mod" "maximize cost: x;" rfl rfl rfl).1⟩

/-! ## Claim C5 — unknown objective name in Solve-Problem -/

/-- With the deployment flag unset, the variable-collection loop touches
no engine parameter and cannot fail. -/
theorem collectVariables_no_deploy (v2c : List (String × String))
    (m : AMPLModel) (l : List (String × Rat)) :
    collectVariables false v2c m l = (m, l, none) := by
  induction l with
  | nil => rfl
  | cons p rest ih =>
    obtain ⟨n, val⟩ := p
    simp [collectVariables, ih]

/-- A successful parameter assignment leaves the declared objectives of
the engine unchanged. -/
theorem setAMPLParameter_objectives {m m1 : AMPLModel} {n : String}
    {v : JValue} (h : setAMPLParameter m n v = .ok m1) :
    m1.objectives = m.objectives := by
  unfold setAMPLParameter at h
  by_cases hl : (m.params.lookup n).isSome = true
  · simp [hl] at h
    cases hc : coerceParam v with
    | none => simp [hc] at h
    | some av => simp [hc] at h; rw [← h]
  · simp [Bool.not_eq_true] at hl
    simp [hl] at h

/-- The snapshot-assignment loop leaves the declared objectives of the
engine unchanged when it succeeds. -/
theorem setParams_objectives {m m1 : AMPLModel}
    {l : List (String × JValue)} (h : setParams m l = (m1, none)) :
    m1.objectives = m.objectives := by
  induction l generalizing m with
  | nil => simp [setParams] at h; rw [h]
  | cons p rest ih =>
    obtain ⟨n, v⟩ := p
    unfold setParams at h
    cases hs : setAMPLParameter m n v with
    | ok m2 =>
      rw [hs] at h
      exact (ih h).trans (setAMPLParameter_objectives hs)
    | error e => rw [hs] at h; simp at h

/-- A request that names a declared objective, whose snapshot parameters
all assign successfully, and that does not deploy, is served: no error
and a Solution message is produced. -/
theorem solveProblem_serves_valid (f : AMPLModel → AMPLModel)
    (s : SolverState) (ctx2 : ExecContext) (g2 : String) (m2 : AMPLModel)
    (hdef : s.problemUndefined = false)
    (hg2 : ctx2.objectiveFunction = some g2)
    (hdep : ctx2.deploySolution = false)
    (hset2 : setParams s.model ctx2.executionContext = (m2, none))
    (hact2 : m2.objectives.any (fun p => p.1 == g2) = true) :
    (solveProblem f s ctx2).2.1 = none ∧
    ((solveProblem f s ctx2).2.2).isSome = true := by
  have hres2 : resolveGoal s ctx2 = .ok g2 := by simp [resolveGoal, hg2]
  simp [solveProblem, hdef, hset2, hres2, hact2, hdep,
        collectVariables_no_deploy]

/-- Claim C5 as stated is false at a concrete input: a request naming the
undeclared objective `latency` against a model declaring only `cost` does
abort with the unknown-objective error and emits no Solution, but the
worker's model is mutated before the throw — the objective selection loop
has already dropped every declared objective. -/
theorem solveProblem_unknown_objective_counterexample :
    (solveProblem id sampleSolver sampleBadCtx).2.1 =
      some .unknownObjective ∧
    (solveProblem id sampleSolver sampleBadCtx).2.2 = none ∧
    (solveProblem id sampleSolver sampleBadCtx).1.model.objectives =
      [("cost", false)] ∧
    (solveProblem id sampleSolver sampleBadCtx).1.model.objectives ≠
      sampleSolver.model.objectives :=
  ⟨rfl, rfl, rfl, by decide⟩

/-- Claim C5 amended: when the active objective name (the request's, else
the stored default) names no declared objective, the solve aborts with
the UnknownObjective error and no Solution is emitted; the problem-defined
flag, the stored default objective name and the variable-to-constant map
are unchanged, but the engine state is mutated before the throw: the
request's snapshot parameters have been assigned and every declared
objective has been dropped.  A subsequent valid request is still served
normally (shown here for a request that names a declared objective, whose
parameter assignments succeed, and that does not deploy). -/
theorem solveProblem_unknown_objective_amended
    (f : AMPLModel → AMPLModel) (s : SolverState) (ctx : ExecContext)
    (m1 : AMPLModel) (goal : String)
    (hdef : s.problemUndefined = false)
    (hset : setParams s.model ctx.executionContext = (m1, none))
    (hgoal : resolveGoal s ctx = .ok goal)
    (hmiss : m1.objectives.any (fun p => p.1 == goal) = false) :
    solveProblem f s ctx =
      ({ s with model := { m1 with
           objectives := m1.objectives.map (fun p => (p.1, false)) } },
       some .unknownObjective, none) ∧
    (solveProblem f s ctx).1.problemUndefined = s.problemUndefined ∧
    (solveProblem f s ctx).1.defaultObjectiveFunction =
      s.defaultObjectiveFunction ∧
    (solveProblem f s ctx).1.variablesToConstants =
      s.variablesToConstants ∧
    (∀ ctx2 g2 m2, ctx2.objectiveFunction = some g2 →
      ctx2.deploySolution = false →
      setParams (solveProblem f s ctx).1.model ctx2.executionContext =
        (m2, none) →
      m2.objectives.any (fun p => p.1 == g2) = true →
      (solveProblem f (solveProblem f s ctx).1 ctx2).2.1 = none ∧
      ((solveProblem f (solveProblem f s ctx).1 ctx2).2.2).isSome = true) := by
  have hdrop : m1.objectives.map (fun p => (p.1, p.1 == goal)) =
      m1.objectives.map (fun p => (p.1, false)) := by
    apply List.map_congr_left
    intro p hp
    have := List.any_eq_false.mp hmiss p hp
    simp at this
    simp [this]
  have hmain : solveProblem f s ctx =
      ({ s with model := { m1 with
           objectives := m1.objectives.map (fun p => (p.1, false)) } },
       some .unknownObjective, none) := by
    simp [solveProblem, hdef, hset, hgoal, hmiss, hdrop]
  refine ⟨hmain, by rw [hmain], by rw [hmain], by rw [hmain], ?_⟩
  intro ctx2 g2 m2 hg2 hdep hset2 hact2
  have hdef2 : (solveProblem f s ctx).1.problemUndefined = false := by
    rw [hmain]; exact hdef
  exact solveProblem_serves_valid f (solveProblem f s ctx).1 ctx2 g2 m2
    hdef2 hg2 hdep hset2 hact2

/-- Witness for the amended C5 at the sample worker and the request
naming the undeclared objective `latency`; the subsequent valid request
used to discharge the last clause names `cost` with an empty snapshot. -/
theorem solveProblem_unknown_objective_amended_witness :
    sampleSolver.problemUndefined = false ∧
    setParams sampleSolver.model sampleBadCtx.executionContext =
      (sampleSolver.model, none) ∧
    resolveGoal sampleSolver sampleBadCtx = .ok "latency" ∧
    sampleSolver.model.objectives.any (fun p => p.1 == "latency") = false ∧
    solveProblem id sampleSolver sampleBadCtx =
      ({ sampleSolver with model := { sampleSolver.model with
           objectives := [("cost", false)] } },
       some .unknownObjective, none) := by
  refine ⟨rfl, rfl, rfl, rfl, ?_⟩
  have := (solveProblem_unknown_objective_amended id sampleSolver
    sampleBadCtx sampleSolver.model "latency" rfl rfl rfl rfl).1
  exact this

/-! ## Claim C7 — contents of an honoured execution-context request -/

/-- Unfolding `updateAssoc` over the head of the list. -/
theorem updateAssoc_cons {β : Type} (a : String) (b : β)
    (rest : List (String × β)) (k : String) (v : β) :
    updateAssoc ((a, b) :: rest) k v =
      (if a = k then (a, v) else (a, b)) :: updateAssoc rest k v := rfl

/-- After replacing the value under a present key, looking the key up
yields the new value. -/
theorem lookup_updateAssoc_self {β : Type} (l : List (String × β))
    (k : String) (v : β) (h : (l.lookup k).isSome = true) :
    (updateAssoc l k v).lookup k = some v := by
  induction l with
  | nil => simp [List.lookup] at h
  | cons p rest ih =>
    obtain ⟨a, b⟩ := p
    rw [updateAssoc_cons]
    by_cases hp : a = k
    · rw [if_pos hp]
      have hk : (k == a) = true := beq_iff_eq.mpr hp.symm
      simp [List.lookup, hk]
    · rw [if_neg hp]
      have hk : (k == a) = false := beq_eq_false_iff_ne.mpr (Ne.symm hp)
      have h1 : (List.lookup k rest).isSome = true := by
        simpa [List.lookup, hk] using h
      simp [List.lookup, hk]
      exact ih h1

/-- Replacing the value under one key does not change the lookup of a
different key. -/
theorem lookup_updateAssoc_ne {β : Type} (l : List (String × β))
    (k k1 : String) (v : β) (h : k ≠ k1) :
    (updateAssoc l k1 v).lookup k = l.lookup k := by
  induction l with
  | nil => simp [updateAssoc]
  | cons p rest ih =>
    obtain ⟨a, b⟩ := p
    rw [updateAssoc_cons]
    by_cases hp : a = k1
    · rw [if_pos hp]
      have hk : (k == a) = false := beq_eq_false_iff_ne.mpr
        (by rw [hp]; exact h)
      simp [List.lookup, hk]
      exact ih
    · rw [if_neg hp]
      by_cases hq : k = a
      · have hk : (k == a) = true := beq_iff_eq.mpr hq
        simp [List.lookup, hk]
      · have hk : (k == a) = false := beq_eq_false_iff_ne.mpr hq
        simp [List.lookup, hk]
        exact ih

/-- Every pair of the updated association list either carries the new
value or was already present. -/
theorem mem_updateAssoc {β : Type} {l : List (String × β)} {k : String}
    {v : β} {p : String × β} (hp : p ∈ updateAssoc l k v) :
    p.2 = v ∨ p ∈ l := by
  unfold updateAssoc at hp
  obtain ⟨q, hq, hfq⟩ := List.mem_map.mp hp
  by_cases h : q.1 = k
  · simp [h] at hfq
    left; rw [← hfq]
  · simp [h] at hfq
    right; rw [← hfq]; exact hq

/-- Updating one metric does not change the stored record of another. -/
theorem lookup_updateMetricValue_ne (s : UpdaterState) (m m1 : String)
    (v1 : JValue) (t3 : Nat) (h : m ≠ m1) :
    (updateMetricValue s m1 v1 t3).metricValues.lookup m =
      s.metricValues.lookup m := by
  unfold updateMetricValue
  split
  · exact lookup_updateAssoc_ne s.metricValues m m1 v1 h
  · rfl

/-- The metric-value handler does not touch the lifecycle state. -/
theorem updateMetricValue_appState (s : UpdaterState) (n : String)
    (v : JValue) (t : Nat) :
    (updateMetricValue s n v t).appState = s.appState := by
  unfold updateMetricValue
  split <;> rfl

/-- The metric-value handler does not touch the all-values-set flag. -/
theorem updateMetricValue_flag (s : UpdaterState) (n : String)
    (v : JValue) (t : Nat) :
    (updateMetricValue s n v t).allMetricValuesSet = s.allMetricValuesSet := by
  unfold updateMetricValue
  split <;> rfl

/-- Claim C7: a metric-value update for `m` (timestamp `t1`, non-null
value, in a registry with no null records while Running) followed by an
SLO violation with prediction time `t2`, honoured before any further
update of `m`, emits an execution-context request whose timestamp is
`t2`, whose snapshot is the registry copy containing the stored value of
`m`, equal to its non-null restriction, and whose deployment flag is
true; the stored lifecycle state transitions to Deploying.  Updates of
metrics other than `m` in between do not change the stored value of
`m`. -/
theorem slo_request_carries_updated_value (s : UpdaterState) (m : String)
    (v : JValue) (t1 t2 : Nat)
    (hrun : s.appState = .running)
    (hmem : (s.metricValues.lookup m).isSome = true)
    (hv : v.isNull = false)
    (hnn : ∀ p ∈ s.metricValues, p.2.isNull = false) :
    ((updateMetricValue s m v t1).metricValues.lookup m = some v) ∧
    (∀ m1 v1 t3, m1 ≠ m →
      (updateMetricValue (updateMetricValue s m v t1) m1 v1
        t3).metricValues.lookup m = some v) ∧
    ((sloViolationHandler (updateMetricValue s m v t1) t2).2 =
      some { timestamp := t2, objectiveFunction := none,
             executionContext := (updateMetricValue s m v t1).metricValues,
             deploySolution := true }) ∧
    ((updateMetricValue s m v t1).metricValues.filter
        (fun p => !p.2.isNull) =
      (updateMetricValue s m v t1).metricValues) ∧
    ((sloViolationHandler (updateMetricValue s m v t1) t2).1.appState =
      .deploying) := by
  have hmv : (updateMetricValue s m v t1).metricValues =
      updateAssoc s.metricValues m v := by
    simp [updateMetricValue, hmem]
  have h1 : (updateMetricValue s m v t1).metricValues.lookup m = some v := by
    rw [hmv]; exact lookup_updateAssoc_self s.metricValues m v hmem
  have hnn1 : ∀ p ∈ (updateMetricValue s m v t1).metricValues,
      p.2.isNull = false := by
    intro p hp
    rw [hmv] at hp
    rcases mem_updateAssoc hp with h | h
    · rw [h]; exact hv
    · exact hnn p h
  have hne : (updateMetricValue s m v t1).metricValues ≠ [] := by
    intro h
    rw [h] at h1
    simp [List.lookup] at h1
  have hcond : sloCondition (updateMetricValue s m v t1) = true := by
    unfold sloCondition
    rw [updateMetricValue_appState, hrun]
    have hall : (updateMetricValue s m v t1).metricValues.all
        (fun p => !p.2.isNull) = true := by
      rw [List.all_eq_true]
      intro p hp
      rw [hnn1 p hp]
      rfl
    have hemp : (updateMetricValue s m v t1).metricValues.isEmpty = false := by
      cases hq : (updateMetricValue s m v t1).metricValues with
      | nil => exact absurd hq hne
      | cons q rest => rfl
    simp [hall, hemp]
  refine ⟨h1, ?_, ?_, ?_, ?_⟩
  · intro m1 v1 t3 hm1
    rw [lookup_updateMetricValue_ne (updateMetricValue s m v t1) m m1 v1 t3
      (Ne.symm hm1)]
    exact h1
  · simp [sloViolationHandler, hcond]
  · apply List.filter_eq_self.mpr
    intro p hp
    rw [hnn1 p hp]
    rfl
  · simp [sloViolationHandler, hcond]

/-- Witness for C7: the sample updater holds `load`; after an update to
4.0 at time 1500, an SLO violation at prediction time 2000 emits the
request with timestamp 2000, the updated snapshot and the deployment
flag set. -/
theorem slo_request_carries_updated_value_witness :
    sampleUpdater.appState = .running ∧
    (sampleUpdater.metricValues.lookup "load").isSome = true ∧
    (JValue.floatVal 4).isNull = false ∧
    (sloViolationHandler (updateMetricValue sampleUpdater "load"
        (.floatVal 4) 1500) 2000).2 =
      some { timestamp := 2000, objectiveFunction := none,
             executionContext := [("load", .floatVal 4)],
             deploySolution := true } := by
  refine ⟨rfl, rfl, rfl, ?_⟩
  have hnn : ∀ p ∈ sampleUpdater.metricValues, p.2.isNull = false := by
    intro p hp
    rw [show sampleUpdater.metricValues = [("load", .floatVal 3)] from rfl,
        List.mem_singleton] at hp
    rw [hp]
    rfl
  exact (slo_request_carries_updated_value sampleUpdater "load"
    (.floatVal 4) 1500 2000 rfl rfl rfl hnn).2.2.1

/-! ## Claim C1 — disjointness of the passive and active solver sets -/

/-- Claim C1 (code bug): dispatching the single queued request from a
pool of one solver leaves that solver's address in BOTH the passive and
the active set — `DispatchToSolvers` inserts the used passive addresses
into `ActiveSolvers` but `std::ranges::move` over the `const` elements of
the `unordered_set` removes nothing from `PassiveSolvers`.  At the
quiescent point after the message, idle ∩ busy = {solver_1} ≠ ∅,
refuting the disjointness half of the claim (the union does still equal
the pool). -/
theorem dispatch_breaks_disjointness :
    (runManager (initManager ["solver_1"])
      [.context { id := "c1", timestamp := 1000 }]).1.passiveSolvers =
        ["solver_1"] ∧
    (runManager (initManager ["solver_1"])
      [.context { id := "c1", timestamp := 1000 }]).1.activeSolvers =
        ["solver_1"] ∧
    "solver_1" ∈ (runManager (initManager ["solver_1"])
      [.context { id := "c1", timestamp := 1000 }]).1.passiveSolvers ∧
    "solver_1" ∈ (runManager (initManager ["solver_1"])
      [.context { id := "c1", timestamp := 1000 }]).1.activeSolvers :=
  ⟨rfl, rfl, by show "solver_1" ∈ ["solver_1"]; simp,
   by show "solver_1" ∈ ["solver_1"]; simp⟩

/-! ## Claim C2 — at-most-one outstanding request per worker -/

/-- Claim C2 (code bug): with a pool of one solver, a second
execution-context message arriving before any solution is returned is
dispatched to the same, still-busy solver, because the dispatched address
was never removed from `PassiveSolvers`.  The dispatch log of the
two-message execution (with no solution message in between) shows
solver_1 receiving both requests. -/
theorem busy_solver_receives_second_request :
    (runManager (initManager ["solver_1"])
      [.context { id := "c1", timestamp := 1000 },
       .context { id := "c2", timestamp := 2000 }]).2 =
      [{ solver := "solver_1", reqTime := 1000, reqId := "c1",
         payload := { id := "c1", timestamp := 1000 } },
       { solver := "solver_1", reqTime := 2000, reqId := "c2",
         payload := { id := "c2", timestamp := 2000 } }] := rfl

/-! ## Claim C9 — time ordering of the dispatched requests -/

/-- Claim C9 as stated is false: across a whole execution the dispatched
timestamps need not be non-decreasing, because a request that arrives
after an earlier-timestamped request was already dispatched is dispatched
later.  Concretely, with two solvers, a request timestamped 2000 arriving
before a request timestamped 1000 yields the dispatch timestamp sequence
[2000, 1000]. -/
theorem dispatch_timestamps_can_decrease :
    ((runManager (initManager ["w1", "w2"])
        [.context { id := "a", timestamp := 2000 },
         .context { id := "b", timestamp := 1000 }]).2.map
      (fun d => d.payload.timestamp)) = [2000, 1000] ∧
    ¬ List.Pairwise (fun x y => x ≤ y) [2000, 1000] :=
  ⟨rfl, by decide⟩

/-- The second components of a zip form the matching front of the second
list. -/
theorem zip_map_snd {α β : Type} (l1 : List α) (l2 : List β) :
    (l1.zip l2).map Prod.snd = l2.take l1.length := by
  induction l1 generalizing l2 with
  | nil => simp
  | cons a rest ih =>
    cases l2 with
    | nil => simp
    | cons b rest2 => simp [List.zip_cons_cons, ih]

/-- Membership after an ordered queue insertion. -/
theorem mem_insertTimed {p : Nat × String} {l : List (Nat × String)}
    {t : Nat} {id : String} (h : p ∈ insertTimed l t id) :
    p = (t, id) ∨ p ∈ l := by
  induction l with
  | nil => simpa [insertTimed] using h
  | cons q rest ih =>
    obtain ⟨t1, id1⟩ := q
    unfold insertTimed at h
    by_cases hlt : t < t1
    · rw [if_pos hlt, List.mem_cons] at h
      rcases h with h1 | h1
      · left; exact h1
      · right; exact h1
    · rw [if_neg hlt, List.mem_cons] at h
      rcases h with h1 | h1
      · right; rw [List.mem_cons]; left; exact h1
      · rcases ih h1 with h2 | h2
        · left; exact h2
        · right; rw [List.mem_cons]; right; exact h2

/-- Ordered insertion at the upper bound of equal keys preserves the
sortedness of the queue. -/
theorem insertTimed_sorted {l : List (Nat × String)} (t : Nat) (id : String)
    (h : List.Pairwise (fun a b => a.1 ≤ b.1) l) :
    List.Pairwise (fun a b => a.1 ≤ b.1) (insertTimed l t id) := by
  induction l with
  | nil => simp [insertTimed]
  | cons q rest ih =>
    obtain ⟨t1, id1⟩ := q
    rw [List.pairwise_cons] at h
    obtain ⟨hhead, htail⟩ := h
    unfold insertTimed
    by_cases hlt : t < t1
    · rw [if_pos hlt]
      refine List.Pairwise.cons ?_ (List.Pairwise.cons hhead htail)
      intro b hb
      rw [List.mem_cons] at hb
      rcases hb with hb1 | hb1
      · rw [hb1]
        exact Nat.le_of_lt hlt
      · exact Nat.le_trans (Nat.le_of_lt hlt) (hhead b hb1)
    · rw [if_neg hlt]
      refine List.Pairwise.cons ?_ (ih htail)
      intro b hb
      rcases mem_insertTimed hb with hb1 | hb1
      · rw [hb1]
        exact Nat.le_of_not_lt hlt
      · exact hhead b hb1

/-- `DispatchToSolvers` preserves the queue invariants, dispatches a
batch whose payload timestamps are non-decreasing, and every dispatched
timestamp is at most every timestamp still queued afterwards. -/
theorem dispatchToSolvers_spec (s : ManagerState) (hs : QueueSorted s)
    (hc : QueueCtx s) :
    QueueSorted (dispatchToSolvers s).1 ∧ QueueCtx (dispatchToSolvers s).1 ∧
    List.Pairwise (fun x y => x ≤ y)
      ((dispatchToSolvers s).2.map (fun d => d.payload.timestamp)) ∧
    ∀ d ∈ (dispatchToSolvers s).2, ∀ q ∈ (dispatchToSolvers s).1.queue,
      d.payload.timestamp ≤ q.1 := by
  unfold dispatchToSolvers
  split
  case isTrue hcond =>
    set n := min s.passiveSolvers.length s.queue.length with hn
    have hts : ∀ p ∈ s.passiveSolvers.zip s.queue,
        ((s.contexts.lookup p.2.2).getD
          { id := p.2.2, timestamp := p.2.1 }).timestamp = p.2.1 := by
      intro p hp
      obtain ⟨a, t, id⟩ := p
      have hmem : (t, id) ∈ s.queue := (List.of_mem_zip hp).2
      rw [hc t id hmem]
      rfl
    have hmap : ((s.passiveSolvers.zip s.queue).map
        (fun p => ({ solver := p.1, reqTime := p.2.1, reqId := p.2.2,
                     payload := (s.contexts.lookup p.2.2).getD
                       { id := p.2.2, timestamp := p.2.1 } } : Dispatch))).map
          (fun d => d.payload.timestamp) =
        (s.queue.take s.passiveSolvers.length).map Prod.fst := by
      rw [List.map_map]
      have hcomp : ∀ p ∈ s.passiveSolvers.zip s.queue,
          ((fun d : Dispatch => d.payload.timestamp) ∘
            (fun p => ({ solver := p.1, reqTime := p.2.1, reqId := p.2.2,
                         payload := (s.contexts.lookup p.2.2).getD
                           { id := p.2.2, timestamp := p.2.1 } } :
              Dispatch))) p = (Prod.fst ∘ Prod.snd) p := by
        intro p hp
        simp only [Function.comp_apply]
        exact hts p hp
      rw [List.map_congr_left hcomp, ← List.map_map, zip_map_snd]
    refine ⟨?_, ?_, ?_, ?_⟩
    · exact List.Pairwise.sublist (List.drop_sublist n s.queue) hs
    · intro t id hmem
      exact hc t id (List.mem_of_mem_drop hmem)
    · rw [hmap]
      exact List.Pairwise.map Prod.fst (fun a b h => h)
        (List.Pairwise.sublist (List.take_sublist _ s.queue) hs)
    · intro d hd q hq
      obtain ⟨p, hp, hdp⟩ := List.mem_map.mp hd
      have hd_ts : d.payload.timestamp = p.2.1 := by
        rw [← hdp]
        exact hts p hp
      rcases Nat.le_total s.queue.length s.passiveSolvers.length with hl | hl
      · have hdrop : s.queue.drop n = [] := by
          rw [hn, Nat.min_eq_right hl, List.drop_length]
        rw [hdrop] at hq
        simp at hq
      · have hn1 : n = s.passiveSolvers.length := by
          rw [hn, Nat.min_eq_left hl]
        have hp2 : p.2 ∈ s.queue.take n := by
          have hm : p.2 ∈ (s.passiveSolvers.zip s.queue).map Prod.snd :=
            List.mem_map.mpr ⟨p, hp, rfl⟩
          rw [zip_map_snd, ← hn1] at hm
          exact hm
        have hsplit : List.Pairwise (fun a b : Nat × String => a.1 ≤ b.1)
            (s.queue.take n ++ s.queue.drop n) := by
          rw [List.take_append_drop]
          exact hs
        have hcross := (List.pairwise_append.mp hsplit).2.2
        rw [hd_ts]
        exact hcross p.2 hp2 q hq
  case isFalse =>
    exact ⟨hs, hc, List.Pairwise.nil, by intro d hd; simp at hd⟩

/-- Claim C9 amended: at each handled message, the batch of requests
dispatched by that message is removed from the front of the time-sorted
queue: its payload timestamps are non-decreasing and each of them is at
most every timestamp still pending afterwards, with equal timestamps
served in arrival order because enqueueing inserts at the upper bound of
equal keys and dispatch removes a queue front.  Across a whole execution
the dispatched timestamps need not be globally non-decreasing, since a
request may arrive after a later-timestamped request was already
dispatched.  The queue invariants are preserved by every message, and
hold in the initial state. -/
theorem dispatch_time_order_per_step (s : ManagerState) (e : MEvent)
    (hs : QueueSorted s) (hc : QueueCtx s) :
    QueueSorted (mstep s e).1 ∧ QueueCtx (mstep s e).1 ∧
    List.Pairwise (fun x y => x ≤ y)
      ((mstep s e).2.map (fun d => d.payload.timestamp)) ∧
    ∀ d ∈ (mstep s e).2, ∀ q ∈ (mstep s e).1.queue,
      d.payload.timestamp ≤ q.1 := by
  cases e with
  | context req =>
    simp only [mstep]
    unfold handleContext
    split
    case isTrue hfresh =>
      apply dispatchToSolvers_spec
      · exact insertTimed_sorted req.timestamp req.id hs
      · intro t id hmem
        rcases mem_insertTimed hmem with h | h
        · rw [Prod.mk.injEq] at h
          obtain ⟨ht, hid⟩ := h
          show (s.contexts ++ [(req.id, req)]).lookup id = some ⟨id, t⟩
          subst ht hid
          have hnone : s.contexts.lookup req.id = none :=
            Option.isNone_iff_eq_none.mp hfresh
          rw [List.lookup_append, hnone]
          simp [List.lookup]
        · show (s.contexts ++ [(req.id, req)]).lookup id = some ⟨id, t⟩
          rw [List.lookup_append, hc t id h]
          rfl
    case isFalse =>
      exact ⟨hs, hc, List.Pairwise.nil, by intro d hd; simp at hd⟩
  | solution solver =>
    simp only [mstep]
    unfold publishSolution
    split
    · exact dispatchToSolvers_spec _ hs hc
    · exact dispatchToSolvers_spec _ hs hc

/-- Witness for the per-step time-order theorem at the freshly
constructed manager handling its first request. -/
theorem dispatch_time_order_per_step_witness :
    QueueSorted (initManager ["w1"]) ∧ QueueCtx (initManager ["w1"]) ∧
    List.Pairwise (fun x y => x ≤ y)
      ((mstep (initManager ["w1"])
        (.context { id := "c1", timestamp := 5 })).2.map
        (fun d => d.payload.timestamp)) :=
  ⟨List.Pairwise.nil, by intro t id h; simp [initManager] at h,
   (dispatch_time_order_per_step (initManager ["w1"])
     (.context { id := "c1", timestamp := 5 }) List.Pairwise.nil
     (by intro t id h; simp [initManager] at h)).2.2.1⟩

end NebulOuS
